import Mathlib

/-!
# Verification of the structured-json-agent convergence loop

A shallow embedding of the repository's core: the `StructuredAgent.run`
convergence loop (`src/agent/index.ts`), its helpers `parseJson` and
`validateOutput`, the error taxonomy (`src/errors/index.ts`), and the
backend factory (`LLMFactory.create`).

The schema validators (Zod predicates), `JSON.parse`, and the error
formatter are external collaborators of the loop; they are modelled as an
environment `Env` of pure functions, and the sequence of backend responses
(one per `complete` call) is modelled as a function from the call index to
an outcome.  The embedded `run` returns, besides the result or raised
error, the number of backend calls performed.
-/

/-- JSON-like runtime values: what `JSON.parse` can produce, plus the raw
string that `parseJson` falls back to when parsing fails. -/
inductive Json where
  | null
  | bool (b : Bool)
  | num (n : Int)
  | str (s : String)
  | arr (elems : List Json)
  | obj (fields : List (String × Json))

/-- External collaborators of the loop: `JSON.parse` (`none` models a
parse exception), the compiled input/output Zod validators (predicates,
plus the structured violations carried by `SchemaValidationError` and the
`formatErrors` text used for output-validation failures). -/
structure Env where
  parse : String → Option Json
  inputValid : Json → Bool
  inputErrors : Json → List String
  outputValid : Json → Bool
  errorsText : Json → String

/-- Outcome of one backend `complete` call: the response text plus
provenance metadata (abstracted to one token), an `LLMExecutionError`, or
an error of any other kind. -/
inductive LLMOutcome where
  | success (data : String) (meta : String)
  | llmError
  | otherError
deriving DecidableEq

/-- The `{valid, errors?}` record returned by `validateOutput`. -/
structure ValidationResult where
  valid : Bool
  errors : Option (List String)
deriving DecidableEq

/-- One `{step, result}` entry pushed onto `history` (the list attached to
`MaxIterationsExceededError`). -/
structure HistoryEntry where
  step : String
  result : Json

/-- One entry of `AgentResult.metadata`: the response's provenance meta,
the step label, and that step's validation result. -/
structure MetadataEntry where
  meta : String
  step : String
  validation : ValidationResult

/-- The optional `ref` argument of `run` (`string | number`). -/
inductive RefValue where
  | str (s : String)
  | num (n : Int)
deriving DecidableEq

/-- `AgentResult` (`src/types/index.ts`). -/
structure AgentResult where
  output : Json
  metadata : List MetadataEntry
  ref : Option RefValue

/-- The errors `run` can raise (`src/errors/index.ts`), plus `otherError`
for a non-`LLMExecutionError` exception propagating from the initial
generation. -/
inductive RunError where
  | schemaValidation (errors : List String)
  | llmExecution
  | maxIterationsExceeded (message : String) (attempts : List HistoryEntry)
  | otherError

/-- Agent configuration, restricted to the field that drives control
flow: `maxIterations?: number` (absent = `undefined`). -/
structure AgentConfig where
  maxIterations : Option Nat

/-- `StructuredAgent.parseJson`: `JSON.parse` the text; on a parse
exception return the raw text itself as the value. -/
def StructuredAgent.parseJson (env : Env) (text : String) : Json :=
  match env.parse text with
  | some j => j
  | none => Json.str text

/-- `StructuredAgent.validateOutput`: validate against the output schema;
on success `{valid: true}`, on a `SchemaValidationError` a singleton list
holding the formatted error text. -/
def StructuredAgent.validateOutput (env : Env) (data : Json) : ValidationResult :=
  if env.outputValid data then ⟨true, none⟩
  else ⟨false, some [env.errorsText data]⟩

/-- The label `review-i` of the i-th review attempt. -/
def reviewLabel (i : Nat) : String :=
  "review-" ++ toString i

/-- The message of `MaxIterationsExceededError`. -/
def maxIterMessage (maxIterations : Nat) : String :=
  "Failed to generate valid JSON after " ++ toString maxIterations ++ " review iterations"

/-- The `for (let i = 0; i < maxIterations; i++)` review loop of
`StructuredAgent.run`, with `fuel = maxIterations - i` remaining
iterations, loop counter `i`, current payload `cur`, the accumulated
`history` / `metadata`, and the number of backend calls made so far
(`responses calls` is the outcome of the next backend call).  An
`LLMExecutionError` from a review call is rethrown; any other error is
swallowed and the loop continues with its state unchanged. -/
def StructuredAgent.reviewLoop (env : Env) (responses : Nat → LLMOutcome)
    (ref : Option RefValue) (maxIterations : Nat) :
    Nat → Nat → Json → List HistoryEntry → List MetadataEntry → Nat →
    Except RunError AgentResult × Nat
  | 0, _, _, hist, _, calls =>
      (Except.error (RunError.maxIterationsExceeded (maxIterMessage maxIterations) hist), calls)
  | fuel + 1, i, cur, hist, md, calls =>
      match responses calls with
      | LLMOutcome.llmError => (Except.error RunError.llmExecution, calls + 1)
      | LLMOutcome.otherError =>
          StructuredAgent.reviewLoop env responses ref maxIterations fuel (i + 1) cur hist md (calls + 1)
      | LLMOutcome.success data meta =>
          let cur2 := StructuredAgent.parseJson env data
          let hist2 := hist ++ [⟨reviewLabel (i + 1), cur2⟩]
          let vr := StructuredAgent.validateOutput env cur2
          let md2 := md ++ [⟨meta, reviewLabel (i + 1), vr⟩]
          if vr.valid then (Except.ok ⟨cur2, md2, ref⟩, calls + 1)
          else StructuredAgent.reviewLoop env responses ref maxIterations fuel (i + 1) cur2 hist2 md2 (calls + 1)

/-- `StructuredAgent.run` (`src/agent/index.ts` lines 271-340): validate
the input (propagating the `SchemaValidationError` unchanged, before any
backend call); default `maxIterations` to 1 by nullish coalescing; make
the initial generation call, parse, record `generation`, validate; return
on success, otherwise enter the review loop.  The second component is the
total number of backend calls performed. -/
def StructuredAgent.run (env : Env) (config : AgentConfig)
    (responses : Nat → LLMOutcome) (inputJson : Json) (ref : Option RefValue) :
    Except RunError AgentResult × Nat :=
  if env.inputValid inputJson then
    let maxIterations := config.maxIterations.getD 1
    match responses 0 with
    | LLMOutcome.llmError => (Except.error RunError.llmExecution, 1)
    | LLMOutcome.otherError => (Except.error RunError.otherError, 1)
    | LLMOutcome.success data meta =>
        let cur := StructuredAgent.parseJson env data
        let hist := [⟨"generation", cur⟩]
        let vr := StructuredAgent.validateOutput env cur
        let md := [⟨meta, "generation", vr⟩]
        if vr.valid then (Except.ok ⟨cur, md, ref⟩, 1)
        else StructuredAgent.reviewLoop env responses ref maxIterations maxIterations 0 cur hist md 1
  else
    (Except.error (RunError.schemaValidation (env.inputErrors inputJson)), 0)

/-- The payload the j-th backend call (0 = generation) contributes after
`parseJson`, when that call succeeds. -/
def attemptPayload (env : Env) (responses : Nat → LLMOutcome) (j : Nat) : Json :=
  match responses j with
  | LLMOutcome.success data _ => StructuredAgent.parseJson env data
  | _ => Json.null

/-- Whether a backend call outcome is a successful response. -/
def LLMOutcome.isSuccess : LLMOutcome → Bool
  | LLMOutcome.success _ _ => true
  | _ => false

/-- The expected metadata step labels after the generation attempt and k
review attempts: `generation, review-1, …, review-k`. -/
def stepLabels (k : Nat) : List String :=
  "generation" :: (List.range' 1 k).map reviewLabel

theorem reviewLoop_zero (env : Env) (responses : Nat → LLMOutcome) (ref : Option RefValue)
    (M i : Nat) (cur : Json) (hist : List HistoryEntry) (md : List MetadataEntry) (calls : Nat) :
    StructuredAgent.reviewLoop env responses ref M 0 i cur hist md calls =
      (Except.error (RunError.maxIterationsExceeded (maxIterMessage M) hist), calls) := rfl

theorem reviewLoop_llm (env : Env) (responses : Nat → LLMOutcome) (ref : Option RefValue)
    (M fuel i : Nat) (cur : Json) (hist : List HistoryEntry) (md : List MetadataEntry) (calls : Nat)
    (h : responses calls = LLMOutcome.llmError) :
    StructuredAgent.reviewLoop env responses ref M (fuel + 1) i cur hist md calls =
      (Except.error RunError.llmExecution, calls + 1) := by
  simp only [StructuredAgent.reviewLoop, h]

theorem reviewLoop_other (env : Env) (responses : Nat → LLMOutcome) (ref : Option RefValue)
    (M fuel i : Nat) (cur : Json) (hist : List HistoryEntry) (md : List MetadataEntry) (calls : Nat)
    (h : responses calls = LLMOutcome.otherError) :
    StructuredAgent.reviewLoop env responses ref M (fuel + 1) i cur hist md calls =
      StructuredAgent.reviewLoop env responses ref M fuel (i + 1) cur hist md (calls + 1) := by
  simp only [StructuredAgent.reviewLoop, h]

theorem reviewLoop_success_valid (env : Env) (responses : Nat → LLMOutcome) (ref : Option RefValue)
    (M fuel i : Nat) (cur : Json) (hist : List HistoryEntry) (md : List MetadataEntry) (calls : Nat)
    (data meta : String) (h : responses calls = LLMOutcome.success data meta)
    (hv : env.outputValid (StructuredAgent.parseJson env data) = true) :
    StructuredAgent.reviewLoop env responses ref M (fuel + 1) i cur hist md calls =
      (Except.ok ⟨StructuredAgent.parseJson env data,
        md ++ [⟨meta, reviewLabel (i + 1), ⟨true, none⟩⟩], ref⟩, calls + 1) := by
  simp only [StructuredAgent.reviewLoop, h, StructuredAgent.validateOutput, hv, if_true]

theorem reviewLoop_success_invalid (env : Env) (responses : Nat → LLMOutcome) (ref : Option RefValue)
    (M fuel i : Nat) (cur : Json) (hist : List HistoryEntry) (md : List MetadataEntry) (calls : Nat)
    (data meta : String) (h : responses calls = LLMOutcome.success data meta)
    (hv : env.outputValid (StructuredAgent.parseJson env data) = false) :
    StructuredAgent.reviewLoop env responses ref M (fuel + 1) i cur hist md calls =
      StructuredAgent.reviewLoop env responses ref M fuel (i + 1)
        (StructuredAgent.parseJson env data)
        (hist ++ [⟨reviewLabel (i + 1), StructuredAgent.parseJson env data⟩])
        (md ++ [⟨meta, reviewLabel (i + 1),
          ⟨false, some [env.errorsText (StructuredAgent.parseJson env data)]⟩⟩])
        (calls + 1) := by
  simp only [StructuredAgent.reviewLoop, h, StructuredAgent.validateOutput, hv, if_false,
    Bool.false_eq_true]

theorem reviewLoop_ok_valid_ref (env : Env) (responses : Nat → LLMOutcome) (ref : Option RefValue)
    (M : Nat) : ∀ (fuel i : Nat) (cur : Json) (hist : List HistoryEntry)
    (md : List MetadataEntry) (calls : Nat) (r : AgentResult) (c : Nat),
    StructuredAgent.reviewLoop env responses ref M fuel i cur hist md calls = (Except.ok r, c) →
    env.outputValid r.output = true ∧ r.ref = ref
  | 0, i, cur, hist, md, calls, r, c => by
      intro h
      rw [reviewLoop_zero] at h
      simp at h
  | fuel + 1, i, cur, hist, md, calls, r, c => by
      intro h
      cases hres : responses calls with
      | llmError =>
          rw [reviewLoop_llm env responses ref M fuel i cur hist md calls hres] at h
          exact absurd h (by simp)
      | otherError =>
          rw [reviewLoop_other env responses ref M fuel i cur hist md calls hres] at h
          exact reviewLoop_ok_valid_ref env responses ref M fuel (i + 1) cur hist md (calls + 1) r c h
      | success data meta =>
          by_cases hv : env.outputValid (StructuredAgent.parseJson env data) = true
          · rw [reviewLoop_success_valid env responses ref M fuel i cur hist md calls data meta hres hv] at h
            have hr : r = ⟨StructuredAgent.parseJson env data,
                md ++ [⟨meta, reviewLabel (i + 1), ⟨true, none⟩⟩], ref⟩ := by
              have := congrArg Prod.fst h
              simpa using this.symm
            subst hr
            exact ⟨hv, rfl⟩
          · rw [reviewLoop_success_invalid env responses ref M fuel i cur hist md calls data meta hres
              (by simpa using hv)] at h
            exact reviewLoop_ok_valid_ref env responses ref M fuel (i + 1) _ _ _ (calls + 1) r c h

theorem run_invalid_input (env : Env) (config : AgentConfig) (responses : Nat → LLMOutcome)
    (inputJson : Json) (ref : Option RefValue) (hin : env.inputValid inputJson = false) :
    StructuredAgent.run env config responses inputJson ref =
      (Except.error (RunError.schemaValidation (env.inputErrors inputJson)), 0) := by
  simp only [StructuredAgent.run, hin, Bool.false_eq_true, if_false]

theorem run_gen_llm (env : Env) (config : AgentConfig) (responses : Nat → LLMOutcome)
    (inputJson : Json) (ref : Option RefValue) (hin : env.inputValid inputJson = true)
    (h0 : responses 0 = LLMOutcome.llmError) :
    StructuredAgent.run env config responses inputJson ref =
      (Except.error RunError.llmExecution, 1) := by
  simp only [StructuredAgent.run, hin, if_true, h0]

theorem run_gen_other (env : Env) (config : AgentConfig) (responses : Nat → LLMOutcome)
    (inputJson : Json) (ref : Option RefValue) (hin : env.inputValid inputJson = true)
    (h0 : responses 0 = LLMOutcome.otherError) :
    StructuredAgent.run env config responses inputJson ref =
      (Except.error RunError.otherError, 1) := by
  simp only [StructuredAgent.run, hin, if_true, h0]

theorem run_gen_valid (env : Env) (config : AgentConfig) (responses : Nat → LLMOutcome)
    (inputJson : Json) (ref : Option RefValue) (data meta : String)
    (hin : env.inputValid inputJson = true)
    (h0 : responses 0 = LLMOutcome.success data meta)
    (hv : env.outputValid (StructuredAgent.parseJson env data) = true) :
    StructuredAgent.run env config responses inputJson ref =
      (Except.ok ⟨StructuredAgent.parseJson env data,
        [⟨meta, "generation", ⟨true, none⟩⟩], ref⟩, 1) := by
  simp only [StructuredAgent.run, hin, if_true, h0, StructuredAgent.validateOutput, hv]

theorem run_gen_invalid (env : Env) (config : AgentConfig) (responses : Nat → LLMOutcome)
    (inputJson : Json) (ref : Option RefValue) (data meta : String)
    (hin : env.inputValid inputJson = true)
    (h0 : responses 0 = LLMOutcome.success data meta)
    (hv : env.outputValid (StructuredAgent.parseJson env data) = false) :
    StructuredAgent.run env config responses inputJson ref =
      StructuredAgent.reviewLoop env responses ref (config.maxIterations.getD 1)
        (config.maxIterations.getD 1) 0
        (StructuredAgent.parseJson env data)
        [⟨"generation", StructuredAgent.parseJson env data⟩]
        [⟨meta, "generation",
          ⟨false, some [env.errorsText (StructuredAgent.parseJson env data)]⟩⟩] 1 := by
  simp only [StructuredAgent.run, hin, if_true, h0, StructuredAgent.validateOutput, hv,
    Bool.false_eq_true, if_false]

theorem reviewLoop_trichotomy (env : Env) (responses : Nat → LLMOutcome) (ref : Option RefValue)
    (M : Nat) : ∀ (fuel i : Nat) (cur : Json) (hist : List HistoryEntry)
    (md : List MetadataEntry) (calls : Nat),
    (∀ n, calls ≤ n → n < calls + fuel → responses n ≠ LLMOutcome.otherError) →
    (∃ r c, StructuredAgent.reviewLoop env responses ref M fuel i cur hist md calls = (Except.ok r, c)) ∨
    (∃ c, StructuredAgent.reviewLoop env responses ref M fuel i cur hist md calls =
      (Except.error RunError.llmExecution, c)) ∨
    (∃ msg hist2 c, StructuredAgent.reviewLoop env responses ref M fuel i cur hist md calls =
      (Except.error (RunError.maxIterationsExceeded msg hist2), c))
  | 0, i, cur, hist, md, calls => by
      intro _
      exact Or.inr (Or.inr ⟨maxIterMessage M, hist, calls, reviewLoop_zero env responses ref M i cur hist md calls⟩)
  | fuel + 1, i, cur, hist, md, calls => by
      intro hno
      cases hres : responses calls with
      | llmError =>
          exact Or.inr (Or.inl ⟨calls + 1, reviewLoop_llm env responses ref M fuel i cur hist md calls hres⟩)
      | otherError =>
          exact absurd hres (hno calls (Nat.le_refl _) (by omega))
      | success data meta =>
          by_cases hv : env.outputValid (StructuredAgent.parseJson env data) = true
          · exact Or.inl ⟨_, calls + 1,
              reviewLoop_success_valid env responses ref M fuel i cur hist md calls data meta hres hv⟩
          · rw [reviewLoop_success_invalid env responses ref M fuel i cur hist md calls data meta hres
              (by simpa using hv)]
            exact reviewLoop_trichotomy env responses ref M fuel (i + 1) _ _ _ (calls + 1)
              (fun n h1 h2 => hno n (by omega) (by omega))

/-- A concrete witness environment: every input is accepted, an output is
valid exactly when it is an object whose single field holds a string, the
text "good" parses to a conforming object and any other text fails to
parse. -/
def envW : Env where
  parse := fun s => if s = "good" then some (Json.obj [("result", Json.str "fixed")]) else none
  inputValid := fun _ => true
  inputErrors := fun _ => []
  outputValid := fun j => match j with
    | Json.obj [(_, Json.str _)] => true
    | _ => false
  errorsText := fun _ => "must match schema"

/-- A concrete witness environment whose input validator rejects
everything with one structured violation. -/
def envBad : Env where
  parse := fun _ => none
  inputValid := fun _ => false
  inputErrors := fun _ => ["data validation failed"]
  outputValid := fun _ => false
  errorsText := fun _ => "e"

/-- A concrete witness response sequence: the generation call returns the
unparseable text "bad", every review call returns the conforming text
"good". -/
def responsesW : Nat → LLMOutcome := fun n =>
  if n = 0 then LLMOutcome.success "bad" "g" else LLMOutcome.success "good" "r"

/-- C1: for every input payload satisfying the input schema and every
sequence of backend responses meeting the backend contract (a text
response or an `LLMExecutionError`), `run` either returns an `AgentResult`
whose `output` satisfies the compiled output schema, or raises
`MaxIterationsExceeded` or `LLMExecution`; it never returns a payload that
fails the output schema. -/
theorem run_conforms_or_typed_failure (env : Env) (config : AgentConfig)
    (responses : Nat → LLMOutcome) (inputJson : Json) (ref : Option RefValue)
    (hin : env.inputValid inputJson = true)
    (hno : ∀ n, n ≤ config.maxIterations.getD 1 → responses n ≠ LLMOutcome.otherError) :
    (∃ r c, StructuredAgent.run env config responses inputJson ref = (Except.ok r, c) ∧
      env.outputValid r.output = true) ∨
    (∃ c, StructuredAgent.run env config responses inputJson ref =
      (Except.error RunError.llmExecution, c)) ∨
    (∃ msg hist c, StructuredAgent.run env config responses inputJson ref =
      (Except.error (RunError.maxIterationsExceeded msg hist), c)) := by
  cases hres0 : responses 0 with
  | llmError =>
      exact Or.inr (Or.inl ⟨1, run_gen_llm env config responses inputJson ref hin hres0⟩)
  | otherError => exact absurd hres0 (hno 0 (Nat.zero_le _))
  | success data meta =>
      by_cases hv : env.outputValid (StructuredAgent.parseJson env data) = true
      · exact Or.inl ⟨_, 1, run_gen_valid env config responses inputJson ref data meta hin hres0 hv, hv⟩
      · rw [run_gen_invalid env config responses inputJson ref data meta hin hres0 (by simpa using hv)]
        rcases reviewLoop_trichotomy env responses ref (config.maxIterations.getD 1)
            (config.maxIterations.getD 1) 0 _ _ _ 1
            (fun n h1 h2 => hno n (by omega)) with h | h | h
        · obtain ⟨r, c, hr⟩ := h
          exact Or.inl ⟨r, c, hr,
            (reviewLoop_ok_valid_ref env responses ref _ _ _ _ _ _ _ r c hr).1⟩
        · exact Or.inr (Or.inl h)
        · exact Or.inr (Or.inr h)

theorem run_conforms_or_typed_failure_witness :
    (envW.inputValid Json.null = true) ∧
    (∀ n, n ≤ (AgentConfig.mk (some 3)).maxIterations.getD 1 → responsesW n ≠ LLMOutcome.otherError) ∧
    ((∃ r c, StructuredAgent.run envW ⟨some 3⟩ responsesW Json.null none = (Except.ok r, c) ∧
        envW.outputValid r.output = true) ∨
      (∃ c, StructuredAgent.run envW ⟨some 3⟩ responsesW Json.null none =
        (Except.error RunError.llmExecution, c)) ∨
      (∃ msg hist c, StructuredAgent.run envW ⟨some 3⟩ responsesW Json.null none =
        (Except.error (RunError.maxIterationsExceeded msg hist), c))) :=
  ⟨rfl, by decide,
    run_conforms_or_typed_failure envW ⟨some 3⟩ responsesW Json.null none rfl (by decide)⟩

/-- C2: for every input payload that does not satisfy the input schema,
`run` raises the `SchemaValidationError` produced by input validation
(carrying the validator's violations, unchanged) and performs zero backend
calls. -/
theorem run_input_failure_propagates_zero_calls (env : Env) (config : AgentConfig)
    (responses : Nat → LLMOutcome) (inputJson : Json) (ref : Option RefValue)
    (hin : env.inputValid inputJson = false) :
    StructuredAgent.run env config responses inputJson ref =
      (Except.error (RunError.schemaValidation (env.inputErrors inputJson)), 0) :=
  run_invalid_input env config responses inputJson ref hin

theorem run_input_failure_propagates_zero_calls_witness :
    (envBad.inputValid Json.null = false) ∧
    StructuredAgent.run envBad ⟨some 3⟩ responsesW Json.null none =
      (Except.error (RunError.schemaValidation (envBad.inputErrors Json.null)), 0) :=
  ⟨rfl, run_input_failure_propagates_zero_calls envBad ⟨some 3⟩ responsesW Json.null none rfl⟩

/-- C9: whenever `run` returns an `AgentResult`, the caller-supplied `ref`
argument appears unchanged as the result's `ref` field (so a provided
reference is echoed regardless of path length, and an omitted one stays
`none`). -/
theorem run_echoes_ref (env : Env) (config : AgentConfig) (responses : Nat → LLMOutcome)
    (inputJson : Json) (ref : Option RefValue) (r : AgentResult) (c : Nat)
    (h : StructuredAgent.run env config responses inputJson ref = (Except.ok r, c)) :
    r.ref = ref := by
  cases hin : env.inputValid inputJson with
  | false =>
      rw [run_invalid_input env config responses inputJson ref hin] at h
      simp at h
  | true =>
      cases hres0 : responses 0 with
      | llmError =>
          rw [run_gen_llm env config responses inputJson ref hin hres0] at h
          simp at h
      | otherError =>
          rw [run_gen_other env config responses inputJson ref hin hres0] at h
          simp at h
      | success data meta =>
          by_cases hv : env.outputValid (StructuredAgent.parseJson env data) = true
          · rw [run_gen_valid env config responses inputJson ref data meta hin hres0 hv] at h
            simp only [Prod.mk.injEq, Except.ok.injEq] at h
            obtain ⟨h1, -⟩ := h
            subst h1
            rfl
          · rw [run_gen_invalid env config responses inputJson ref data meta hin hres0
              (by simpa using hv)] at h
            exact (reviewLoop_ok_valid_ref env responses ref _ _ _ _ _ _ _ r c h).2

theorem run_echoes_ref_witness :
    StructuredAgent.run envW ⟨some 3⟩ responsesW Json.null (some (RefValue.str "12345")) =
      (Except.ok ⟨Json.obj [("result", Json.str "fixed")],
        [⟨"g", "generation", ⟨false, some ["must match schema"]⟩⟩,
         ⟨"r", "review-1", ⟨true, none⟩⟩], some (RefValue.str "12345")⟩, 2) ∧
    (AgentResult.mk (Json.obj [("result", Json.str "fixed")])
        [⟨"g", "generation", ⟨false, some ["must match schema"]⟩⟩,
         ⟨"r", "review-1", ⟨true, none⟩⟩] (some (RefValue.str "12345"))).ref =
      some (RefValue.str "12345") :=
  ⟨rfl, run_echoes_ref envW ⟨some 3⟩ responsesW Json.null (some (RefValue.str "12345")) _ 2 rfl⟩

theorem reviewLabel_cons_range' (s n : Nat) :
    reviewLabel s :: (List.range' (s + 1) n).map reviewLabel =
    (List.range' s (n + 1)).map reviewLabel := by
  rw [List.range'_succ, List.map_cons]

theorem reviewLoop_all_fail (env : Env) (responses : Nat → LLMOutcome) (ref : Option RefValue)
    (M : Nat) : ∀ (fuel i : Nat) (cur : Json) (hist : List HistoryEntry) (md : List MetadataEntry),
    (∀ j, i + 1 ≤ j → j < i + 1 + fuel → (responses j).isSuccess = true) →
    (∀ j, i + 1 ≤ j → j < i + 1 + fuel → env.outputValid (attemptPayload env responses j) = false) →
    StructuredAgent.reviewLoop env responses ref M fuel i cur hist md (i + 1) =
      (Except.error (RunError.maxIterationsExceeded (maxIterMessage M)
        (hist ++ (List.range' (i + 1) fuel).map (fun n =>
          ⟨reviewLabel n, attemptPayload env responses n⟩))), (i + 1) + fuel)
  | 0, i, cur, hist, md => by
      intro _ _
      simp [reviewLoop_zero]
  | fuel + 1, i, cur, hist, md => by
      intro hsucc hfail
      have hs := hsucc (i + 1) (Nat.le_refl _) (by omega)
      cases hres : responses (i + 1) with
      | llmError => rw [hres] at hs; simp [LLMOutcome.isSuccess] at hs
      | otherError => rw [hres] at hs; simp [LLMOutcome.isSuccess] at hs
      | success data meta =>
          have hp : attemptPayload env responses (i + 1) = StructuredAgent.parseJson env data := by
            simp [attemptPayload, hres]
          have hv : env.outputValid (StructuredAgent.parseJson env data) = false := by
            rw [← hp]; exact hfail (i + 1) (Nat.le_refl _) (by omega)
          rw [reviewLoop_success_invalid env responses ref M fuel i cur hist md (i + 1) data meta hres hv]
          rw [reviewLoop_all_fail env responses ref M fuel (i + 1) _ _ _
            (fun j h1 h2 => hsucc j (by omega) (by omega))
            (fun j h1 h2 => hfail j (by omega) (by omega))]
          rw [List.range'_succ]
          simp only [Prod.mk.injEq]
          refine ⟨?_, by omega⟩
          simp only [List.map_cons, List.append_assoc, List.cons_append, List.nil_append,
            List.singleton_append, hp]
  termination_by fuel => fuel

theorem reviewLoop_succeeds_after (env : Env) (responses : Nat → LLMOutcome) (ref : Option RefValue)
    (M : Nat) : ∀ (t fuel i : Nat) (cur : Json) (hist : List HistoryEntry) (md : List MetadataEntry),
    t < fuel →
    (∀ j, i + 1 ≤ j → j ≤ i + 1 + t → (responses j).isSuccess = true) →
    (∀ j, i + 1 ≤ j → j < i + 1 + t → env.outputValid (attemptPayload env responses j) = false) →
    env.outputValid (attemptPayload env responses (i + 1 + t)) = true →
    ∃ r, StructuredAgent.reviewLoop env responses ref M fuel i cur hist md (i + 1) =
        (Except.ok r, (i + 1 + t) + 1) ∧
      r.output = attemptPayload env responses (i + 1 + t) ∧
      r.metadata.map MetadataEntry.step =
        md.map MetadataEntry.step ++ (List.range' (i + 1) (t + 1)).map reviewLabel ∧
      r.ref = ref
  | 0, fuel, i, cur, hist, md => by
      intro hfuel hsucc _ hvalid
      cases fuel with
      | zero => omega
      | succ f =>
          have hs := hsucc (i + 1) (Nat.le_refl _) (by omega)
          cases hres : responses (i + 1) with
          | llmError => rw [hres] at hs; simp [LLMOutcome.isSuccess] at hs
          | otherError => rw [hres] at hs; simp [LLMOutcome.isSuccess] at hs
          | success data meta =>
              have hp : attemptPayload env responses (i + 1) = StructuredAgent.parseJson env data := by
                simp [attemptPayload, hres]
              have hv : env.outputValid (StructuredAgent.parseJson env data) = true := by
                rw [← hp]
                rw [show i + 1 + 0 = i + 1 by omega] at hvalid
                exact hvalid
              refine ⟨_, reviewLoop_success_valid env responses ref M f i cur hist md (i + 1) data meta hres hv,
                ?_, ?_, rfl⟩
              · simp [hp]
              · simp [List.range'_succ, hp]
  | t + 1, fuel, i, cur, hist, md => by
      intro hfuel hsucc hfail hvalid
      cases fuel with
      | zero => omega
      | succ f =>
          have hs := hsucc (i + 1) (Nat.le_refl _) (by omega)
          cases hres : responses (i + 1) with
          | llmError => rw [hres] at hs; simp [LLMOutcome.isSuccess] at hs
          | otherError => rw [hres] at hs; simp [LLMOutcome.isSuccess] at hs
          | success data meta =>
              have hp : attemptPayload env responses (i + 1) = StructuredAgent.parseJson env data := by
                simp [attemptPayload, hres]
              have hv : env.outputValid (StructuredAgent.parseJson env data) = false := by
                rw [← hp]; exact hfail (i + 1) (Nat.le_refl _) (by omega)
              rw [reviewLoop_success_invalid env responses ref M f i cur hist md (i + 1) data meta hres hv]
              obtain ⟨r, hr, hout, hmd, href⟩ :=
                reviewLoop_succeeds_after env responses ref M t f (i + 1)
                  (StructuredAgent.parseJson env data)
                  (hist ++ [⟨reviewLabel (i + 1), StructuredAgent.parseJson env data⟩])
                  (md ++ [⟨meta, reviewLabel (i + 1),
                    ⟨false, some [env.errorsText (StructuredAgent.parseJson env data)]⟩⟩])
                  (by omega)
                  (fun j h1 h2 => hsucc j (by omega) (by omega))
                  (fun j h1 h2 => hfail j (by omega) (by omega))
                  (by rw [show i + 1 + 1 + t = i + 1 + (t + 1) by omega]; exact hvalid)
              refine ⟨r, ?_, ?_, ?_, href⟩
              · rw [hr]
                simp only [Prod.mk.injEq]
                exact ⟨trivial, by omega⟩
              · rw [hout]
                rw [show i + 1 + 1 + t = i + 1 + (t + 1) by omega]
              · rw [hmd]
                simp only [List.map_append, List.map_cons, List.map_nil, List.append_assoc,
                  List.cons_append, List.nil_append, List.singleton_append]
                rw [reviewLabel_cons_range' (i + 1) (t + 1)]
  termination_by t => t

/-- A concrete witness response sequence every payload of which fails
output validation: each call returns the unparseable text "bad". -/
def responsesBadW : Nat → LLMOutcome := fun _ => LLMOutcome.success "bad" "g"

/-- C3: if the input passes validation and output validation fails `k`
times before the `(k+1)`-th attempt's payload succeeds, with `k` at most
the configured budget, then exactly `k+1` backend calls are made and the
result's metadata has exactly `k+1` entries labeled
`generation, review-1, …, review-k` in that order (the `k = 0` case being
first-generation success with a single `generation` entry and no reviewer
invocation). -/
theorem run_convergence_calls_and_labels (env : Env) (config : AgentConfig)
    (responses : Nat → LLMOutcome) (inputJson : Json) (ref : Option RefValue) (k : Nat)
    (hin : env.inputValid inputJson = true)
    (hk : k ≤ config.maxIterations.getD 1)
    (hsucc : ∀ j, j ≤ k → (responses j).isSuccess = true)
    (hfail : ∀ j, j < k → env.outputValid (attemptPayload env responses j) = false)
    (hvalid : env.outputValid (attemptPayload env responses k) = true) :
    ∃ r, StructuredAgent.run env config responses inputJson ref = (Except.ok r, k + 1) ∧
      r.output = attemptPayload env responses k ∧
      r.metadata.map MetadataEntry.step = stepLabels k ∧
      r.ref = ref := by
  have hs0 := hsucc 0 (Nat.zero_le _)
  cases hres0 : responses 0 with
  | llmError => rw [hres0] at hs0; simp [LLMOutcome.isSuccess] at hs0
  | otherError => rw [hres0] at hs0; simp [LLMOutcome.isSuccess] at hs0
  | success data meta =>
      have hp0 : attemptPayload env responses 0 = StructuredAgent.parseJson env data := by
        simp [attemptPayload, hres0]
      cases k with
      | zero =>
          have hv0 : env.outputValid (StructuredAgent.parseJson env data) = true := by
            rw [← hp0]; exact hvalid
          refine ⟨_, run_gen_valid env config responses inputJson ref data meta hin hres0 hv0,
            ?_, ?_, rfl⟩
          · simp [hp0]
          · simp [stepLabels]
      | succ t =>
          have hv0 : env.outputValid (StructuredAgent.parseJson env data) = false := by
            rw [← hp0]; exact hfail 0 (by omega)
          rw [run_gen_invalid env config responses inputJson ref data meta hin hres0 hv0]
          obtain ⟨r, hr, hout, hmd, href⟩ :=
            reviewLoop_succeeds_after env responses ref (config.maxIterations.getD 1) t
              (config.maxIterations.getD 1) 0
              (StructuredAgent.parseJson env data)
              [⟨"generation", StructuredAgent.parseJson env data⟩]
              [⟨meta, "generation",
                ⟨false, some [env.errorsText (StructuredAgent.parseJson env data)]⟩⟩]
              (by omega)
              (fun j h1 h2 => hsucc j (by omega))
              (fun j h1 h2 => hfail j (by omega))
              (by rw [show 0 + 1 + t = t + 1 by omega]; exact hvalid)
          simp only [Nat.zero_add] at hr hout hmd
          refine ⟨r, ?_, ?_, ?_, href⟩
          · rw [hr]
            simp only [Prod.mk.injEq]
            exact ⟨trivial, by omega⟩
          · rw [hout, show 1 + t = t + 1 by omega]
          · rw [hmd]
            simp [stepLabels]

theorem run_convergence_calls_and_labels_witness :
    (envW.inputValid Json.null = true) ∧
    (1 ≤ (AgentConfig.mk (some 3)).maxIterations.getD 1) ∧
    (∀ j, j ≤ 1 → (responsesW j).isSuccess = true) ∧
    (∀ j, j < 1 → envW.outputValid (attemptPayload envW responsesW j) = false) ∧
    (envW.outputValid (attemptPayload envW responsesW 1) = true) ∧
    (∃ r, StructuredAgent.run envW ⟨some 3⟩ responsesW Json.null none = (Except.ok r, 1 + 1) ∧
      r.output = attemptPayload envW responsesW 1 ∧
      r.metadata.map MetadataEntry.step = stepLabels 1 ∧
      r.ref = none) :=
  ⟨rfl, by decide, by decide, by decide, rfl,
    run_convergence_calls_and_labels envW ⟨some 3⟩ responsesW Json.null none 1
      rfl (by decide) (by decide) (by decide) rfl⟩

/-- C4: if the input passes validation and every attempt's payload fails
output validation through the full budget, `run` raises
`MaxIterationsExceeded`, its attached history has exactly `budget + 1`
entries, and exactly `budget + 1` backend calls are made in total (the
initial generation does not count against the budget). -/
theorem run_budget_exhaustion (env : Env) (config : AgentConfig)
    (responses : Nat → LLMOutcome) (inputJson : Json) (ref : Option RefValue)
    (hin : env.inputValid inputJson = true)
    (hsucc : ∀ j, j ≤ config.maxIterations.getD 1 → (responses j).isSuccess = true)
    (hfail : ∀ j, j ≤ config.maxIterations.getD 1 →
      env.outputValid (attemptPayload env responses j) = false) :
    ∃ hist, StructuredAgent.run env config responses inputJson ref =
        (Except.error (RunError.maxIterationsExceeded
          (maxIterMessage (config.maxIterations.getD 1)) hist),
         config.maxIterations.getD 1 + 1) ∧
      hist.length = config.maxIterations.getD 1 + 1 := by
  have hs0 := hsucc 0 (Nat.zero_le _)
  cases hres0 : responses 0 with
  | llmError => rw [hres0] at hs0; simp [LLMOutcome.isSuccess] at hs0
  | otherError => rw [hres0] at hs0; simp [LLMOutcome.isSuccess] at hs0
  | success data meta =>
      have hp0 : attemptPayload env responses 0 = StructuredAgent.parseJson env data := by
        simp [attemptPayload, hres0]
      have hv0 : env.outputValid (StructuredAgent.parseJson env data) = false := by
        rw [← hp0]; exact hfail 0 (Nat.zero_le _)
      rw [run_gen_invalid env config responses inputJson ref data meta hin hres0 hv0]
      have hall := reviewLoop_all_fail env responses ref (config.maxIterations.getD 1)
        (config.maxIterations.getD 1) 0
        (StructuredAgent.parseJson env data)
        [⟨"generation", StructuredAgent.parseJson env data⟩]
        [⟨meta, "generation",
          ⟨false, some [env.errorsText (StructuredAgent.parseJson env data)]⟩⟩]
        (fun j h1 h2 => hsucc j (by omega))
        (fun j h1 h2 => hfail j (by omega))
      simp only [Nat.zero_add] at hall
      refine ⟨⟨"generation", StructuredAgent.parseJson env data⟩ ::
        (List.range' 1 (config.maxIterations.getD 1)).map
          (fun n => ⟨reviewLabel n, attemptPayload env responses n⟩), ?_, ?_⟩
      · rw [hall]
        simp only [List.singleton_append, Prod.mk.injEq]
        exact ⟨trivial, by omega⟩
      · simp [List.length_range']

theorem run_budget_exhaustion_witness :
    (envW.inputValid Json.null = true) ∧
    (∀ j, j ≤ (AgentConfig.mk (some 2)).maxIterations.getD 1 → (responsesBadW j).isSuccess = true) ∧
    (∀ j, j ≤ (AgentConfig.mk (some 2)).maxIterations.getD 1 →
      envW.outputValid (attemptPayload envW responsesBadW j) = false) ∧
    (∃ hist, StructuredAgent.run envW ⟨some 2⟩ responsesBadW Json.null none =
        (Except.error (RunError.maxIterationsExceeded
          (maxIterMessage ((AgentConfig.mk (some 2)).maxIterations.getD 1)) hist),
         (AgentConfig.mk (some 2)).maxIterations.getD 1 + 1) ∧
      hist.length = (AgentConfig.mk (some 2)).maxIterations.getD 1 + 1) :=
  ⟨rfl, by decide, by decide,
    run_budget_exhaustion envW ⟨some 2⟩ responsesBadW Json.null none rfl (by decide) (by decide)⟩

/-- C10: if `maxIterations` is explicitly `0` (not unset) and the first
generation's payload fails output validation, `run` performs exactly one
backend call and raises `MaxIterationsExceeded` with a single history
entry labeled `generation`: the nullish-coalescing default of 1 does not
replace an explicit zero budget, so no review attempt is made. -/
theorem run_explicit_zero_budget (env : Env) (config : AgentConfig)
    (responses : Nat → LLMOutcome) (inputJson : Json) (ref : Option RefValue)
    (data meta : String)
    (hcfg : config.maxIterations = some 0)
    (hin : env.inputValid inputJson = true)
    (h0 : responses 0 = LLMOutcome.success data meta)
    (hv : env.outputValid (StructuredAgent.parseJson env data) = false) :
    StructuredAgent.run env config responses inputJson ref =
      (Except.error (RunError.maxIterationsExceeded (maxIterMessage 0)
        [⟨"generation", StructuredAgent.parseJson env data⟩]), 1) := by
  rw [run_gen_invalid env config responses inputJson ref data meta hin h0 hv, hcfg]
  rfl

theorem run_explicit_zero_budget_witness :
    ((AgentConfig.mk (some 0)).maxIterations = some 0) ∧
    (envW.inputValid Json.null = true) ∧
    (responsesBadW 0 = LLMOutcome.success "bad" "g") ∧
    (envW.outputValid (StructuredAgent.parseJson envW "bad") = false) ∧
    StructuredAgent.run envW ⟨some 0⟩ responsesBadW Json.null none =
      (Except.error (RunError.maxIterationsExceeded (maxIterMessage 0)
        [⟨"generation", StructuredAgent.parseJson envW "bad"⟩]), 1) :=
  ⟨rfl, rfl, rfl, rfl,
    run_explicit_zero_budget envW ⟨some 0⟩ responsesBadW Json.null none "bad" "g" rfl rfl rfl rfl⟩

/-- C6: a generation response text that is not parseable as JSON does not
crash `run`: the raw text string itself becomes the current payload
(`parseJson` returns it verbatim), it appears verbatim as the `generation`
attempt's recorded result in both history and metadata, and — failing
output validation like any other payload — it feeds the ordinary review
loop. -/
theorem run_unparseable_text_feeds_loop (env : Env) (config : AgentConfig)
    (responses : Nat → LLMOutcome) (inputJson : Json) (ref : Option RefValue)
    (data meta : String)
    (hin : env.inputValid inputJson = true)
    (h0 : responses 0 = LLMOutcome.success data meta)
    (hp : env.parse data = none)
    (hv : env.outputValid (Json.str data) = false) :
    StructuredAgent.parseJson env data = Json.str data ∧
    StructuredAgent.run env config responses inputJson ref =
      StructuredAgent.reviewLoop env responses ref (config.maxIterations.getD 1)
        (config.maxIterations.getD 1) 0 (Json.str data)
        [⟨"generation", Json.str data⟩]
        [⟨meta, "generation", ⟨false, some [env.errorsText (Json.str data)]⟩⟩] 1 := by
  have hpj : StructuredAgent.parseJson env data = Json.str data := by
    simp [StructuredAgent.parseJson, hp]
  refine ⟨hpj, ?_⟩
  have := run_gen_invalid env config responses inputJson ref data meta hin h0 (by rw [hpj]; exact hv)
  rw [hpj] at this
  exact this

theorem run_unparseable_text_feeds_loop_witness :
    (envW.inputValid Json.null = true) ∧
    (responsesBadW 0 = LLMOutcome.success "bad" "g") ∧
    (envW.parse "bad" = none) ∧
    (envW.outputValid (Json.str "bad") = false) ∧
    (StructuredAgent.parseJson envW "bad" = Json.str "bad" ∧
      StructuredAgent.run envW ⟨some 2⟩ responsesBadW Json.null none =
        StructuredAgent.reviewLoop envW responsesBadW none
          ((AgentConfig.mk (some 2)).maxIterations.getD 1)
          ((AgentConfig.mk (some 2)).maxIterations.getD 1) 0 (Json.str "bad")
          [⟨"generation", Json.str "bad"⟩]
          [⟨"g", "generation", ⟨false, some [envW.errorsText (Json.str "bad")]⟩⟩] 1) :=
  ⟨rfl, rfl, rfl, rfl,
    run_unparseable_text_feeds_loop envW ⟨some 2⟩ responsesBadW Json.null none "bad" "g"
      rfl rfl rfl rfl⟩

/-- C7: during the review loop, an error raised inside a review iteration
propagates immediately out of `run` exactly when it is an
`LLMExecutionError` (third conjunct: at run level, with at least one
review iteration available, an `LLMExecutionError` on the first review
call makes `run` raise it after two backend calls); a reviewer-step
failure of any other kind is swallowed and the loop continues silently to
the next iteration with its state — payload, history, metadata —
unchanged, consuming the iteration without recording an attempt. -/
theorem review_error_propagation (env : Env) (config : AgentConfig)
    (responses : Nat → LLMOutcome) (inputJson : Json) (ref : Option RefValue)
    (M fuel i : Nat) (cur : Json) (hist : List HistoryEntry) (md : List MetadataEntry)
    (calls : Nat) (data meta : String) :
    (responses calls = LLMOutcome.llmError →
      StructuredAgent.reviewLoop env responses ref M (fuel + 1) i cur hist md calls =
        (Except.error RunError.llmExecution, calls + 1)) ∧
    (responses calls = LLMOutcome.otherError →
      StructuredAgent.reviewLoop env responses ref M (fuel + 1) i cur hist md calls =
        StructuredAgent.reviewLoop env responses ref M fuel (i + 1) cur hist md (calls + 1)) ∧
    (env.inputValid inputJson = true → responses 0 = LLMOutcome.success data meta →
      env.outputValid (StructuredAgent.parseJson env data) = false →
      1 ≤ config.maxIterations.getD 1 → responses 1 = LLMOutcome.llmError →
      StructuredAgent.run env config responses inputJson ref =
        (Except.error RunError.llmExecution, 2)) := by
  refine ⟨reviewLoop_llm env responses ref M fuel i cur hist md calls,
    reviewLoop_other env responses ref M fuel i cur hist md calls, ?_⟩
  intro hin h0 hv hB h1
  rw [run_gen_invalid env config responses inputJson ref data meta hin h0 hv]
  obtain ⟨b, hb⟩ : ∃ b, config.maxIterations.getD 1 = b + 1 :=
    ⟨config.maxIterations.getD 1 - 1, by omega⟩
  rw [hb, reviewLoop_llm env responses ref (b + 1) b 0 _ _ _ 1 h1]

/-- A concrete witness response sequence whose review call fails with an
`LLMExecutionError`. -/
def responsesLlmW : Nat → LLMOutcome := fun n =>
  if n = 0 then LLMOutcome.success "bad" "g" else LLMOutcome.llmError

/-- A concrete witness response sequence whose review call fails with a
non-`LLMExecutionError` exception. -/
def responsesOtherW : Nat → LLMOutcome := fun n =>
  if n = 0 then LLMOutcome.success "bad" "g" else LLMOutcome.otherError

theorem review_error_propagation_witness :
    (responsesLlmW 1 = LLMOutcome.llmError ∧
      StructuredAgent.reviewLoop envW responsesLlmW none 3 3 0 (Json.str "bad") [] [] 1 =
        (Except.error RunError.llmExecution, 2)) ∧
    (responsesOtherW 1 = LLMOutcome.otherError ∧
      StructuredAgent.reviewLoop envW responsesOtherW none 3 3 0 (Json.str "bad") [] [] 1 =
        StructuredAgent.reviewLoop envW responsesOtherW none 3 2 1 (Json.str "bad") [] [] 2) ∧
    (StructuredAgent.run envW ⟨some 1⟩ responsesLlmW Json.null none =
      (Except.error RunError.llmExecution, 2)) :=
  ⟨⟨rfl, (review_error_propagation envW ⟨some 1⟩ responsesLlmW Json.null none 3 2 0
      (Json.str "bad") [] [] 1 "bad" "g").1 rfl⟩,
   ⟨rfl, (review_error_propagation envW ⟨some 1⟩ responsesOtherW Json.null none 3 2 0
      (Json.str "bad") [] [] 1 "bad" "g").2.1 rfl⟩,
   (review_error_propagation envW ⟨some 1⟩ responsesLlmW Json.null none 3 2 0
      (Json.str "bad") [] [] 1 "bad" "g").2.2 rfl rfl rfl (by decide) rfl⟩

theorem reviewLoop_error_history (env : Env) (responses : Nat → LLMOutcome) (ref : Option RefValue)
    (M : Nat) : ∀ (fuel i : Nat) (cur : Json) (hist : List HistoryEntry) (md : List MetadataEntry)
    (calls : Nat) (msg : String) (hist2 : List HistoryEntry) (c : Nat),
    StructuredAgent.reviewLoop env responses ref M fuel i cur hist md calls =
      (Except.error (RunError.maxIterationsExceeded msg hist2), c) →
    msg = maxIterMessage M ∧
    ∃ L, hist2 = hist ++ L ∧ ∀ e ∈ L, env.outputValid e.result = false ∧
      ∃ n, i + 1 ≤ n ∧ n ≤ i + fuel ∧ e.step = reviewLabel n
  | 0, i, cur, hist, md, calls, msg, hist2, c => by
      intro h
      rw [reviewLoop_zero] at h
      simp only [Prod.mk.injEq, Except.error.injEq, RunError.maxIterationsExceeded.injEq] at h
      obtain ⟨⟨hm, hh⟩, -⟩ := h
      exact ⟨hm.symm, ⟨[], by rw [List.append_nil]; exact hh.symm, by simp⟩⟩
  | fuel + 1, i, cur, hist, md, calls, msg, hist2, c => by
      intro h
      cases hres : responses calls with
      | llmError =>
          rw [reviewLoop_llm env responses ref M fuel i cur hist md calls hres] at h
          simp at h
      | otherError =>
          rw [reviewLoop_other env responses ref M fuel i cur hist md calls hres] at h
          obtain ⟨hm, L, hL, hprop⟩ :=
            reviewLoop_error_history env responses ref M fuel (i + 1) cur hist md (calls + 1)
              msg hist2 c h
          refine ⟨hm, L, hL, fun e he => ⟨(hprop e he).1, ?_⟩⟩
          obtain ⟨n, h1, h2, h3⟩ := (hprop e he).2
          exact ⟨n, by omega, by omega, h3⟩
      | success data meta =>
          by_cases hv : env.outputValid (StructuredAgent.parseJson env data) = true
          · rw [reviewLoop_success_valid env responses ref M fuel i cur hist md calls
              data meta hres hv] at h
            simp at h
          · have hv2 : env.outputValid (StructuredAgent.parseJson env data) = false := by
              simpa using hv
            rw [reviewLoop_success_invalid env responses ref M fuel i cur hist md calls
              data meta hres hv2] at h
            obtain ⟨hm, L, hL, hprop⟩ :=
              reviewLoop_error_history env responses ref M fuel (i + 1) _ _ _ (calls + 1)
                msg hist2 c h
            refine ⟨hm, ⟨reviewLabel (i + 1), StructuredAgent.parseJson env data⟩ :: L, ?_, ?_⟩
            · rw [hL]
              simp [List.append_assoc]
            · intro e he
              rcases List.mem_cons.mp he with he0 | heL
              · subst he0
                exact ⟨hv2, ⟨i + 1, Nat.le_refl _, by omega, rfl⟩⟩
              · obtain ⟨n, h1, h2, h3⟩ := (hprop e heL).2
                exact ⟨(hprop e heL).1, ⟨n, by omega, by omega, h3⟩⟩
  termination_by fuel => fuel

/-- A concrete witness environment that rejects every output payload and
formats errors with one formatter text. -/
def envE1 : Env where
  parse := fun _ => none
  inputValid := fun _ => true
  inputErrors := fun _ => []
  outputValid := fun _ => false
  errorsText := fun _ => "first formatter"

/-- The same witness environment as `envE1` except that its output
validator formats errors with a different text, so the two environments
produce different validation outcomes for every invalid payload. -/
def envE2 : Env where
  parse := fun _ => none
  inputValid := fun _ => true
  inputErrors := fun _ => []
  outputValid := fun _ => false
  errorsText := fun _ => "second formatter"

/-- A concrete witness response sequence: every call returns the
unparseable text "x". -/
def responsesE : Nat → LLMOutcome := fun _ => LLMOutcome.success "x" "m"

/-- C5 counterexample: the history attached to `MaxIterationsExceeded`
does not record each step's validation outcome.  Two environments that
disagree on the validation outcome (different formatted error details)
of exactly the payloads recorded produce identical raised histories, so
the outcome is not recoverable from the error: the entries hold only a
step label and the payload. -/
theorem history_lacks_validation_outcome_cex :
    StructuredAgent.run envE1 ⟨some 1⟩ responsesE Json.null none =
      (Except.error (RunError.maxIterationsExceeded (maxIterMessage 1)
        [⟨"generation", Json.str "x"⟩, ⟨"review-1", Json.str "x"⟩]), 2) ∧
    StructuredAgent.run envE2 ⟨some 1⟩ responsesE Json.null none =
      (Except.error (RunError.maxIterationsExceeded (maxIterMessage 1)
        [⟨"generation", Json.str "x"⟩, ⟨"review-1", Json.str "x"⟩]), 2) ∧
    StructuredAgent.validateOutput envE1 (Json.str "x") ≠
      StructuredAgent.validateOutput envE2 (Json.str "x") :=
  ⟨rfl, rfl, by decide⟩

/-- C5 (amended): whenever `run` raises `MaxIterationsExceeded`, the
error carries the complete ordered attempt history: its first entry
records the `generation` step with the parsed generation payload, every
later entry records a `review-n` step label (`1 ≤ n ≤` budget) with that
attempt's payload, and every recorded payload failed output validation —
but the validation outcome itself (in particular its error detail) is not
stored in the history entries. -/
theorem maxIter_history_steps_and_payloads (env : Env) (config : AgentConfig)
    (responses : Nat → LLMOutcome) (inputJson : Json) (ref : Option RefValue)
    (msg : String) (hist : List HistoryEntry) (c : Nat)
    (h : StructuredAgent.run env config responses inputJson ref =
      (Except.error (RunError.maxIterationsExceeded msg hist), c)) :
    msg = maxIterMessage (config.maxIterations.getD 1) ∧
    hist.head? = some ⟨"generation", attemptPayload env responses 0⟩ ∧
    (∀ e ∈ hist, env.outputValid e.result = false) ∧
    (∀ e ∈ hist.tail, ∃ n, 1 ≤ n ∧ n ≤ config.maxIterations.getD 1 ∧
      e.step = reviewLabel n) := by
  cases hin : env.inputValid inputJson with
  | false =>
      rw [run_invalid_input env config responses inputJson ref hin] at h
      simp at h
  | true =>
      cases hres0 : responses 0 with
      | llmError =>
          rw [run_gen_llm env config responses inputJson ref hin hres0] at h
          simp at h
      | otherError =>
          rw [run_gen_other env config responses inputJson ref hin hres0] at h
          simp at h
      | success data meta =>
          have hp0 : attemptPayload env responses 0 = StructuredAgent.parseJson env data := by
            simp [attemptPayload, hres0]
          by_cases hv : env.outputValid (StructuredAgent.parseJson env data) = true
          · rw [run_gen_valid env config responses inputJson ref data meta hin hres0 hv] at h
            simp at h
          · have hv2 : env.outputValid (StructuredAgent.parseJson env data) = false := by
              simpa using hv
            rw [run_gen_invalid env config responses inputJson ref data meta hin hres0 hv2] at h
            obtain ⟨hm, L, hL, hprop⟩ :=
              reviewLoop_error_history env responses ref (config.maxIterations.getD 1)
                (config.maxIterations.getD 1) 0 _ _ _ 1 msg hist c h
            rw [List.singleton_append] at hL
            refine ⟨hm, ?_, ?_, ?_⟩
            · rw [hL, hp0]
              rfl
            · intro e he
              rw [hL] at he
              rcases List.mem_cons.mp he with he0 | heL
              · subst he0
                exact hv2
              · exact (hprop e heL).1
            · intro e he
              rw [hL] at he
              simp only [List.tail_cons] at he
              obtain ⟨n, h1, h2, h3⟩ := (hprop e he).2
              exact ⟨n, by omega, by omega, h3⟩

theorem maxIter_history_steps_and_payloads_witness :
    (StructuredAgent.run envE1 ⟨some 1⟩ responsesE Json.null none =
      (Except.error (RunError.maxIterationsExceeded (maxIterMessage 1)
        [⟨"generation", Json.str "x"⟩, ⟨"review-1", Json.str "x"⟩]), 2)) ∧
    (maxIterMessage 1 = maxIterMessage ((AgentConfig.mk (some 1)).maxIterations.getD 1) ∧
     ([⟨"generation", Json.str "x"⟩, ⟨"review-1", Json.str "x"⟩] : List HistoryEntry).head? =
       some ⟨"generation", attemptPayload envE1 responsesE 0⟩ ∧
     (∀ e ∈ ([⟨"generation", Json.str "x"⟩, ⟨"review-1", Json.str "x"⟩] : List HistoryEntry),
       envE1.outputValid e.result = false) ∧
     (∀ e ∈ ([⟨"generation", Json.str "x"⟩, ⟨"review-1", Json.str "x"⟩] : List HistoryEntry).tail,
       ∃ n, 1 ≤ n ∧ n ≤ (AgentConfig.mk (some 1)).maxIterations.getD 1 ∧
         e.step = reviewLabel n)) :=
  ⟨rfl, maxIter_history_steps_and_payloads envE1 ⟨some 1⟩ responsesE Json.null none
    (maxIterMessage 1) [⟨"generation", Json.str "x"⟩, ⟨"review-1", Json.str "x"⟩] 2 rfl⟩

/-- The shape/markers of a value passed to `LLMFactory.create`: whether it
already provides a `complete` function, which provider client class it is
an instance of, its configured base endpoint, and the duck-typing markers
used by the fallback checks (`chat.completions.create`,
`messages.create`, `models.generateContent`/`getGenerativeModel`). -/
structure LLMInstanceShape where
  hasComplete : Bool
  isOpenAIClient : Bool
  isAnthropicClient : Bool
  isGoogleClient : Bool
  baseURL : Option String
  hasChatCompletionsCreate : Bool
  hasMessagesCreate : Bool
  hasGenerateContent : Bool
deriving DecidableEq

/-- The possible results of adapter selection. -/
inductive LLMAdapter where
  | unchanged
  | openai
  | deepseek
  | anthropic
  | google
deriving DecidableEq

/-- The `Error("Unknown LLM instance type provided.")` failure of the
factory. -/
inductive FactoryError where
  | unknownInstance
deriving DecidableEq

/-- Whether the first list of characters starts the second. -/
def charsStartWith : List Char → List Char → Bool
  | [], _ => true
  | _ :: _, [] => false
  | p :: ps, c :: cs => p == c && charsStartWith ps cs

/-- Whether the first list of characters occurs contiguously somewhere in
the second. -/
def charsContain (pat : List Char) : List Char → Bool
  | [] => charsStartWith pat []
  | c :: cs => charsStartWith pat (c :: cs) || charsContain pat cs

/-- Whether a configured base endpoint indicates the DeepSeek
OpenAI-compatible provider (the endpoint mentions "deepseek", e.g.
`https://api.deepseek.com`). -/
def baseURLIsDeepseek : Option String → Bool
  | some u => charsContain "deepseek".toList u.toList
  | none => false

/-- Modelled from the spec: the current `src/llm/factory.ts` is absent
from the repository snapshot (only its test `factory.test.ts`, the
`DeepSeekAdapter`, and an older factory without the DeepSeek branch are
present), so the DeepSeek base-endpoint selection is modelled from §4.2
of the spec ("the factory inspects distinguishing shape/markers (e.g.,
configured base endpoint indicating an OpenAI-compatible alternate
provider) to select the correct adapter") and its test; the remaining
dispatch — capability object used unchanged, instance checks, duck-typed
fallback checks, unrecognized-backend error — follows the factory
snapshot in `src/agent/index.ts`. -/
def LLMFactory.create (inst : LLMInstanceShape) : Except FactoryError LLMAdapter :=
  if inst.hasComplete then Except.ok LLMAdapter.unchanged
  else if inst.isOpenAIClient then
    (if baseURLIsDeepseek inst.baseURL then Except.ok LLMAdapter.deepseek
     else Except.ok LLMAdapter.openai)
  else if inst.isAnthropicClient then Except.ok LLMAdapter.anthropic
  else if inst.isGoogleClient then Except.ok LLMAdapter.google
  else if inst.hasChatCompletionsCreate then
    (if baseURLIsDeepseek inst.baseURL then Except.ok LLMAdapter.deepseek
     else Except.ok LLMAdapter.openai)
  else if inst.hasMessagesCreate then Except.ok LLMAdapter.anthropic
  else if inst.hasGenerateContent then Except.ok LLMAdapter.google
  else Except.error FactoryError.unknownInstance

/-- C8: `LLMFactory.create` returns the given object unchanged when it
already provides the `complete` capability; otherwise it selects an
adapter from the instance's shape/markers — in particular, an OpenAI
client configured with the DeepSeek base endpoint gets the DeepSeek
adapter; and when no marker matches, it fails with the
unrecognized-backend error. -/
theorem llmFactory_create_dispatch (s : LLMInstanceShape) :
    (s.hasComplete = true → LLMFactory.create s = Except.ok LLMAdapter.unchanged) ∧
    (s.hasComplete = false → s.isOpenAIClient = true → baseURLIsDeepseek s.baseURL = true →
      LLMFactory.create s = Except.ok LLMAdapter.deepseek) ∧
    (s.hasComplete = false → s.isOpenAIClient = true → baseURLIsDeepseek s.baseURL = false →
      LLMFactory.create s = Except.ok LLMAdapter.openai) ∧
    (s.hasComplete = false → s.isOpenAIClient = false → s.isAnthropicClient = false →
      s.isGoogleClient = false → s.hasChatCompletionsCreate = false →
      s.hasMessagesCreate = false → s.hasGenerateContent = false →
      LLMFactory.create s = Except.error FactoryError.unknownInstance) := by
  refine ⟨?_, ?_, ?_, ?_⟩ <;> intros <;> simp_all [LLMFactory.create]

theorem llmFactory_create_dispatch_witness :
    ((⟨true, false, false, false, none, false, false, false⟩ : LLMInstanceShape).hasComplete = true ∧
      LLMFactory.create ⟨true, false, false, false, none, false, false, false⟩ =
        Except.ok LLMAdapter.unchanged) ∧
    (baseURLIsDeepseek (some "https://api.deepseek.com") = true ∧
      LLMFactory.create
        ⟨false, true, false, false, some "https://api.deepseek.com", true, false, false⟩ =
        Except.ok LLMAdapter.deepseek) ∧
    (LLMFactory.create ⟨false, true, false, false, none, true, false, false⟩ =
      Except.ok LLMAdapter.openai) ∧
    (LLMFactory.create ⟨false, false, false, false, none, false, false, false⟩ =
      Except.error FactoryError.unknownInstance) :=
  ⟨⟨rfl, (llmFactory_create_dispatch ⟨true, false, false, false, none, false, false, false⟩).1 rfl⟩,
   ⟨by decide, (llmFactory_create_dispatch
      ⟨false, true, false, false, some "https://api.deepseek.com", true, false, false⟩).2.1
      rfl rfl (by decide)⟩,
   (llmFactory_create_dispatch ⟨false, true, false, false, none, true, false, false⟩).2.2.1
      rfl rfl rfl,
   (llmFactory_create_dispatch ⟨false, false, false, false, none, false, false, false⟩).2.2.2
      rfl rfl rfl rfl rfl rfl rfl⟩
